import Mathlib

/-!
Verification development for the kuandorwear storage layer and API routes.

The TypeScript source is embedded shallowly:

* JS `Map<number, T>` objects (insertion-ordered) become association lists
  `List (Int × T)` with `mapGet` / `mapSet` / `mapDelete` mirroring
  `Map.get` / `Map.set` / `Map.delete`.
* `MemStorage` becomes pure functions over a `MemState` record; `DatabaseStorage`
  becomes pure functions over a `DbState` record whose tables are plain lists
  (a `select ... where eq` is `List.find?` / `List.filter`, an `update ... set`
  is a `List.map` that rewrites the matching rows, a `delete ... where` is a
  `List.filter` dropping the matching rows, `returning()` yields the affected
  rows).
* JS `Date` values become a `Nat` tick taken from the state's `now` field.
* JS numbers used as ids/quantities/stock become `Int`; money and ratings
  averages become `ℚ`.
* `Partial<T>` patches become records of `Option` fields, where `none` means
  the key is absent; the spread merge `\x7b...a, ...b\x7d` becomes `Option.getD`.
-/

/-- User record (table `users`). -/
structure User where
  id : Int
  username : String
  password : String
  email : String
  fullName : String
  role : String
  createdAt : Nat
deriving DecidableEq

/-- Product record as the application sees it.  `comingSoon` and `releaseDate`
are optional because in-memory products "might not have the comingSoon
property yet" and the database table has no such columns. -/
structure Product where
  id : Int
  name : String
  description : String
  price : ℚ
  discount : ℚ
  category : String
  imageUrls : List String
  availableSizes : List String
  availableColors : List String
  supplierId : Int
  stock : Int
  isActive : Bool
  comingSoon : Option Bool
  releaseDate : Option Nat
deriving DecidableEq

/-- Product row as stored in the `products` database table: the table has no
`coming_soon` or `release_date` column (per the source's comments). -/
structure ProductRow where
  id : Int
  name : String
  description : String
  price : ℚ
  discount : ℚ
  category : String
  imageUrls : List String
  availableSizes : List String
  availableColors : List String
  supplierId : Int
  stock : Int
  isActive : Bool
deriving DecidableEq

/-- DatabaseStorage.getProduct returns the row plus
`comingSoon: false, releaseDate: null`. -/
def rowToProduct (r : ProductRow) : Product :=
  { id := r.id, name := r.name, description := r.description, price := r.price,
    discount := r.discount, category := r.category, imageUrls := r.imageUrls,
    availableSizes := r.availableSizes, availableColors := r.availableColors,
    supplierId := r.supplierId, stock := r.stock, isActive := r.isActive,
    comingSoon := some false, releaseDate := none }

/-- Order record. -/
structure Order where
  id : Int
  customerId : Int
  totalAmount : ℚ
  status : String
  paymentStatus : String
  orderDate : Nat
deriving DecidableEq

/-- Order line item. -/
structure OrderItem where
  id : Int
  orderId : Int
  productId : Int
  quantity : Int
  price : ℚ
deriving DecidableEq

/-- Cart line item (`CartItem`). -/
structure CartItem where
  productId : Int
  quantity : Int
  size : String
  color : String
deriving DecidableEq

/-- Cart record. -/
structure Cart where
  id : Int
  userId : Int
  items : List CartItem
  updatedAt : Nat
deriving DecidableEq

/-- Supplier inventory row. -/
structure SupplierInventory where
  id : Int
  supplierId : Int
  productId : Int
  availableStock : Int
  updatedAt : Nat
deriving DecidableEq

/-- Review record; `customerId` is nullable (admin-authored reviews). -/
structure Review where
  id : Int
  productId : Int
  customerId : Option Int
  rating : Int
  comment : String
  createdAt : Nat
deriving DecidableEq

/-- Payload accepted by `createReview` (`InsertReview`): the caller may omit
`customerId`. -/
structure InsertReview where
  productId : Int
  customerId : Option Int
  rating : Int
  comment : String
deriving DecidableEq

/-- Payload accepted by `createOrder` (`InsertOrder`). -/
structure InsertOrder where
  customerId : Int
  totalAmount : ℚ
  status : String
  paymentStatus : String
deriving DecidableEq

/-- Payload accepted by `addOrderItem` (`InsertOrderItem`). -/
structure InsertOrderItem where
  orderId : Int
  productId : Int
  quantity : Int
  price : ℚ
deriving DecidableEq

/-- A `Partial<Product>` patch: every field of `Product` may be present or
absent (including `id`). -/
structure ProductPatch where
  id : Option Int := none
  name : Option String := none
  description : Option String := none
  price : Option ℚ := none
  discount : Option ℚ := none
  category : Option String := none
  imageUrls : Option (List String) := none
  availableSizes : Option (List String) := none
  availableColors : Option (List String) := none
  supplierId : Option Int := none
  stock : Option Int := none
  isActive : Option Bool := none
  comingSoon : Option (Option Bool) := none
  releaseDate : Option (Option Nat) := none
deriving DecidableEq

/-- A `Partial<Order>` patch. -/
structure OrderPatch where
  id : Option Int := none
  customerId : Option Int := none
  totalAmount : Option ℚ := none
  status : Option String := none
  paymentStatus : Option String := none
  orderDate : Option Nat := none
deriving DecidableEq

/-- Spread merge `\x7b ...existingProduct, ...product \x7d`: fields present in
the patch override, absent fields keep the prior value. -/
def mergeProduct (p : Product) (u : ProductPatch) : Product :=
  { id := u.id.getD p.id
    name := u.name.getD p.name
    description := u.description.getD p.description
    price := u.price.getD p.price
    discount := u.discount.getD p.discount
    category := u.category.getD p.category
    imageUrls := u.imageUrls.getD p.imageUrls
    availableSizes := u.availableSizes.getD p.availableSizes
    availableColors := u.availableColors.getD p.availableColors
    supplierId := u.supplierId.getD p.supplierId
    stock := u.stock.getD p.stock
    isActive := u.isActive.getD p.isActive
    comingSoon := u.comingSoon.getD p.comingSoon
    releaseDate := u.releaseDate.getD p.releaseDate }

/-- Spread merge `\x7b ...existingOrder, ...order \x7d`. -/
def mergeOrder (o : Order) (u : OrderPatch) : Order :=
  { id := u.id.getD o.id
    customerId := u.customerId.getD o.customerId
    totalAmount := u.totalAmount.getD o.totalAmount
    status := u.status.getD o.status
    paymentStatus := u.paymentStatus.getD o.paymentStatus
    orderDate := u.orderDate.getD o.orderDate }

/-- Filter object taken by `getProducts`. -/
structure ProductFilters where
  category : Option String := none
  supplierId : Option Int := none
  isActive : Option Bool := none
  comingSoon : Option Bool := none
deriving DecidableEq

/-- Filter object taken by `getOrders`. -/
structure OrderFilters where
  customerId : Option Int := none
  status : Option String := none
deriving DecidableEq

/-- JS `Map.get`. -/
def mapGet {α : Type} (k : Int) : List (Int × α) → Option α
  | [] => none
  | (k', v) :: rest => if k' = k then some v else mapGet k rest

/-- JS `Map.set`: replaces the entry in place when the key exists, otherwise
appends (JS maps preserve insertion order). -/
def mapSet {α : Type} (k : Int) (v : α) : List (Int × α) → List (Int × α)
  | [] => [(k, v)]
  | (k', v') :: rest => if k' = k then (k, v) :: rest else (k', v') :: mapSet k v rest

/-- JS `Map.delete` (the removal part). -/
def mapDelete {α : Type} (k : Int) : List (Int × α) → List (Int × α)
  | [] => []
  | (k', v) :: rest => if k' = k then rest else (k', v) :: mapDelete k rest

/-- JS `Map.has` / the boolean result of `Map.delete`. -/
def mapHas {α : Type} (k : Int) (m : List (Int × α)) : Bool :=
  (mapGet k m).isSome

/-- JS `Array.from(map.values())`. -/
def mapValues {α : Type} (m : List (Int × α)) : List α :=
  m.map (·.2)

/-- State of `MemStorage`: one insertion-ordered map and one counter per
entity, plus a clock supplying `new Date()`. -/
structure MemState where
  users : List (Int × User) := []
  products : List (Int × Product) := []
  orders : List (Int × Order) := []
  orderItems : List (Int × OrderItem) := []
  carts : List (Int × Cart) := []
  supplierInventories : List (Int × SupplierInventory) := []
  reviews : List (Int × Review) := []
  userIdCounter : Int := 1
  productIdCounter : Int := 1
  orderIdCounter : Int := 1
  orderItemIdCounter : Int := 1
  cartIdCounter : Int := 1
  inventoryIdCounter : Int := 1
  reviewIdCounter : Int := 1
  now : Nat := 0
deriving DecidableEq

namespace Mem

/-- MemStorage.getProduct. -/
def getProduct (s : MemState) (id : Int) : Option Product :=
  mapGet id s.products

/-- MemStorage.getProducts: each present filter field is applied in turn, but
`category` and `supplierId` are guarded by JS truthiness (`""` and `0` are
falsy and skip the filter) while `isActive` and `comingSoon` are guarded by
`!== undefined`; a product lacking the `comingSoon` property never matches a
`comingSoon` filter. -/
def getProducts (s : MemState) (filters : ProductFilters := {}) : List Product :=
  let ps := mapValues s.products
  let ps := match filters.category with
    | some c => if c ≠ "" then ps.filter (fun p => p.category == c) else ps
    | none => ps
  let ps := match filters.supplierId with
    | some sid => if sid ≠ 0 then ps.filter (fun p => p.supplierId == sid) else ps
    | none => ps
  let ps := match filters.isActive with
    | some b => ps.filter (fun p => p.isActive == b)
    | none => ps
  match filters.comingSoon with
    | some b => ps.filter (fun p =>
        match p.comingSoon with
        | some pc => pc == b
        | none => false)
    | none => ps

/-- MemStorage.updateProduct: spread merge, stored back under the same key;
`undefined` when the id matches no record. -/
def updateProduct (s : MemState) (id : Int) (u : ProductPatch) :
    Option Product × MemState :=
  match mapGet id s.products with
  | none => (none, s)
  | some p =>
      let updated := mergeProduct p u
      (some updated, { s with products := mapSet id updated s.products })

/-- MemStorage.deleteProduct: a bare `Map.delete` — no cascade. -/
def deleteProduct (s : MemState) (id : Int) : Bool × MemState :=
  (mapHas id s.products, { s with products := mapDelete id s.products })

/-- MemStorage.getOrders; `customerId` is guarded by JS truthiness (0 is
falsy), `status` likewise (empty string is falsy). -/
def getOrders (s : MemState) (filters : OrderFilters := {}) : List Order :=
  let os := mapValues s.orders
  let os := match filters.customerId with
    | some cid => if cid ≠ 0 then os.filter (fun o => o.customerId == cid) else os
    | none => os
  match filters.status with
    | some st => if st ≠ "" then os.filter (fun o => o.status == st) else os
    | none => os

/-- MemStorage.updateOrder: spread merge. -/
def updateOrder (s : MemState) (id : Int) (u : OrderPatch) :
    Option Order × MemState :=
  match mapGet id s.orders with
  | none => (none, s)
  | some o =>
      let updated := mergeOrder o u
      (some updated, { s with orders := mapSet id updated s.orders })

/-- MemStorage.getOrderItems. -/
def getOrderItems (s : MemState) (orderId : Int) : List OrderItem :=
  (mapValues s.orderItems).filter (fun it => it.orderId == orderId)

/-- MemStorage.deleteOrder: deletes each associated order item by its id,
then deletes the order itself, returning `Map.delete`'s boolean. -/
def deleteOrder (s : MemState) (id : Int) : Bool × MemState :=
  let items := getOrderItems s id
  let orderItems' := items.foldl (fun m it => mapDelete it.id m) s.orderItems
  (mapHas id s.orders,
   { s with orderItems := orderItems', orders := mapDelete id s.orders })

/-- MemStorage.getCart: linear scan for the cart with this userId. -/
def getCart (s : MemState) (userId : Int) : Option Cart :=
  (mapValues s.carts).find? (fun c => c.userId == userId)

/-- MemStorage.updateCart: replace-or-create upsert keyed by userId. -/
def updateCart (s : MemState) (userId : Int) (items : List CartItem) :
    Cart × MemState :=
  match getCart s userId with
  | none =>
      let id := s.cartIdCounter
      let cart : Cart := { id := id, userId := userId, items := items, updatedAt := s.now }
      (cart, { s with carts := mapSet id cart s.carts, cartIdCounter := id + 1 })
  | some cart0 =>
      let cart := { cart0 with items := items, updatedAt := s.now }
      (cart, { s with carts := mapSet cart.id cart s.carts })

/-- The `find` locating an inventory row by (supplierId, productId). -/
def findInventory (s : MemState) (supplierId productId : Int) :
    Option SupplierInventory :=
  (mapValues s.supplierInventories).find?
    (fun inv => inv.supplierId == supplierId && inv.productId == productId)

/-- MemStorage.updateInventory: insert branch creates a fresh row and returns
it (without touching the product); update branch rewrites the row and then
writes `Product.stock` through `updateProduct` when the product exists. -/
def updateInventory (s : MemState) (supplierId productId stock : Int) :
    Option SupplierInventory × MemState :=
  match findInventory s supplierId productId with
  | none =>
      let id := s.inventoryIdCounter
      let newInventory : SupplierInventory :=
        { id := id, supplierId := supplierId, productId := productId,
          availableStock := stock, updatedAt := s.now }
      (some newInventory,
       { s with supplierInventories := mapSet id newInventory s.supplierInventories,
                inventoryIdCounter := id + 1 })
  | some inv =>
      let updatedInventory := { inv with availableStock := stock, updatedAt := s.now }
      let s1 := { s with supplierInventories := mapSet inv.id updatedInventory s.supplierInventories }
      let s2 := match getProduct s1 productId with
        | some _ => (updateProduct s1 productId { stock := some stock }).2
        | none => s1
      (some updatedInventory, s2)

/-- MemStorage.createReview: a zero/negative/absent customerId is stored as
null; stamps createdAt and assigns the next id. -/
def createReview (s : MemState) (r : InsertReview) : Review × MemState :=
  let id := s.reviewIdCounter
  let customerId : Option Int :=
    match r.customerId with
    | some v => if 0 < v then some v else none
    | none => none
  let newReview : Review :=
    { id := id, productId := r.productId, customerId := customerId,
      rating := r.rating, comment := r.comment, createdAt := s.now }
  (newReview,
   { s with reviews := mapSet id newReview s.reviews, reviewIdCounter := id + 1 })

/-- Mean review rating of a product; 0 when it has no reviews (the absent
entry in the `reviewAverages` map). -/
def avgRating (s : MemState) (productId : Int) : ℚ :=
  let rs := (mapValues s.reviews).filter (fun r => r.productId == productId)
  if rs.length = 0 then 0
  else ((rs.map (fun r => (r.rating : ℚ))).sum) / (rs.length : ℚ)

/-- Comparator `(a, b) => b.avgRating - a.avgRating` as the ordering relation
of a stable sort: a pair is in order when the right rating is at most the
left one. -/
def trendingLe (a b : Product × ℚ) : Bool :=
  decide (b.2 ≤ a.2)

/-- MemStorage.getTrendingProducts: pair each product with its average
rating, keep active products, stable-sort descending by rating, take the
first `limit` and project the product back out. -/
def getTrendingProducts (s : MemState) (limit : Nat := 4) : List Product :=
  let withRatings := (mapValues s.products).map (fun p => (p, avgRating s p.id))
  let active := withRatings.filter (fun x => x.1.isActive)
  let sorted := active.mergeSort trendingLe
  (sorted.take limit).map (fun x => x.1)

end Mem

/-- State of `DatabaseStorage`: one list per table, serial-id sequences, and
a clock supplying `new Date()` and the timestamp column defaults. -/
structure DbState where
  users : List User := []
  products : List ProductRow := []
  orders : List Order := []
  orderItems : List OrderItem := []
  carts : List Cart := []
  supplierInventory : List SupplierInventory := []
  reviews : List Review := []
  userSeq : Int := 1
  productSeq : Int := 1
  orderSeq : Int := 1
  orderItemSeq : Int := 1
  cartSeq : Int := 1
  inventorySeq : Int := 1
  reviewSeq : Int := 1
  now : Nat := 0
deriving DecidableEq

/-- Whether any of the column keys that `DatabaseStorage.updateProduct` copies
into `updateData` is present (the patch's `id` is never copied). -/
def patchHasUpdates (u : ProductPatch) : Bool :=
  u.name.isSome || u.description.isSome || u.price.isSome || u.category.isSome ||
  u.imageUrls.isSome || u.availableSizes.isSome || u.availableColors.isSome ||
  u.supplierId.isSome || u.stock.isSome || u.discount.isSome || u.isActive.isSome ||
  u.comingSoon.isSome || u.releaseDate.isSome

/-- Application of the `updateData` column assignments to one table row
(`id`, `coming_soon` and `release_date` are not columns of the table). -/
def applyRowPatch (r : ProductRow) (u : ProductPatch) : ProductRow :=
  { id := r.id
    name := u.name.getD r.name
    description := u.description.getD r.description
    price := u.price.getD r.price
    discount := u.discount.getD r.discount
    category := u.category.getD r.category
    imageUrls := u.imageUrls.getD r.imageUrls
    availableSizes := u.availableSizes.getD r.availableSizes
    availableColors := u.availableColors.getD r.availableColors
    supplierId := u.supplierId.getD r.supplierId
    stock := u.stock.getD r.stock
    isActive := u.isActive.getD r.isActive }

namespace Db

/-- DatabaseStorage.getUsersByRole. -/
def getUsersByRole (db : DbState) (role : String) : List User :=
  db.users.filter (fun u => u.role == role)

/-- DatabaseStorage.getProduct: selects the row and decorates it with
`comingSoon: false, releaseDate: null`. -/
def getProduct (db : DbState) (id : Int) : Option Product :=
  (db.products.find? (fun r => r.id == id)).map rowToProduct

/-- DatabaseStorage.updateProduct: builds `updateData` from the present patch
fields (never the id); with nothing to update it just re-reads the row,
otherwise it rewrites the matching rows and returns the updated row. -/
def updateProduct (db : DbState) (id : Int) (u : ProductPatch) :
    Option ProductRow × DbState :=
  if patchHasUpdates u then
    let products' := db.products.map (fun r => if r.id == id then applyRowPatch r u else r)
    ((products'.find? (fun r => r.id == id)), { db with products := products' })
  else
    (db.products.find? (fun r => r.id == id), db)

/-- DatabaseStorage.deleteProduct: cascade — supplier_inventory rows, then
reviews, then the product; `!!deleted` is whether a product row came back
from `returning()`. -/
def deleteProduct (db : DbState) (id : Int) : Bool × DbState :=
  let inventory' := db.supplierInventory.filter (fun i => !(i.productId == id))
  let reviews' := db.reviews.filter (fun r => !(r.productId == id))
  let deleted := db.products.filter (fun r => r.id == id)
  (!deleted.isEmpty,
   { db with supplierInventory := inventory', reviews := reviews',
             products := db.products.filter (fun r => !(r.id == id)) })

/-- DatabaseStorage.getOrder. -/
def getOrder (db : DbState) (id : Int) : Option Order :=
  db.orders.find? (fun o => o.id == id)

/-- DatabaseStorage.getOrders; the same JS truthiness guards as the
in-memory variant (`customerId` 0 and `status` absent add no `where`). -/
def getOrders (db : DbState) (filters : OrderFilters := {}) : List Order :=
  let os := db.orders
  let os := match filters.customerId with
    | some cid => if cid ≠ 0 then os.filter (fun o => o.customerId == cid) else os
    | none => os
  match filters.status with
    | some st => if st ≠ "" then os.filter (fun o => o.status == st) else os
    | none => os

/-- DatabaseStorage.createOrder: the insert returns the persisted row; the
serial id and the `orderDate` column default are modelled from the spec
(`createOrder` stamps orderDate at creation time; identifiers are assigned
monotonically), the schema file being outside the sources. -/
def createOrder (db : DbState) (o : InsertOrder) : Order × DbState :=
  let order : Order :=
    { id := db.orderSeq, customerId := o.customerId, totalAmount := o.totalAmount,
      status := o.status, paymentStatus := o.paymentStatus, orderDate := db.now }
  (order, { db with orders := db.orders ++ [order], orderSeq := db.orderSeq + 1 })

/-- DatabaseStorage.deleteOrder: order items first, then the order;
`!!deleted` as in `deleteProduct`. -/
def deleteOrder (db : DbState) (id : Int) : Bool × DbState :=
  let orderItems' := db.orderItems.filter (fun it => !(it.orderId == id))
  let deleted := db.orders.filter (fun o => o.id == id)
  (!deleted.isEmpty,
   { db with orderItems := orderItems',
             orders := db.orders.filter (fun o => !(o.id == id)) })

/-- DatabaseStorage.getOrderItems. -/
def getOrderItems (db : DbState) (orderId : Int) : List OrderItem :=
  db.orderItems.filter (fun it => it.orderId == orderId)

/-- DatabaseStorage.addOrderItem; serial id modelled from the spec (generated
identifier on insert), the schema file being outside the sources. -/
def addOrderItem (db : DbState) (it : InsertOrderItem) : OrderItem × DbState :=
  let item : OrderItem :=
    { id := db.orderItemSeq, orderId := it.orderId, productId := it.productId,
      quantity := it.quantity, price := it.price }
  (item, { db with orderItems := db.orderItems ++ [item],
                   orderItemSeq := db.orderItemSeq + 1 })

/-- DatabaseStorage.getCart. -/
def getCart (db : DbState) (userId : Int) : Option Cart :=
  db.carts.find? (fun c => c.userId == userId)

/-- DatabaseStorage.updateCart: insert a fresh cart when none exists for the
user, otherwise update the rows with this userId; either way the items are
replaced wholesale and updatedAt refreshed. -/
def updateCart (db : DbState) (userId : Int) (items : List CartItem) :
    Cart × DbState :=
  match db.carts.find? (fun c => c.userId == userId) with
  | none =>
      let cart : Cart := { id := db.cartSeq, userId := userId, items := items, updatedAt := db.now }
      (cart, { db with carts := db.carts ++ [cart], cartSeq := db.cartSeq + 1 })
  | some c0 =>
      let carts' := db.carts.map (fun c =>
        if c.userId == userId then { c with items := items, updatedAt := db.now } else c)
      ({ c0 with items := items, updatedAt := db.now }, { db with carts := carts' })

/-- The `select ... where and(eq supplierId, eq productId)` lookup. -/
def findInventory (db : DbState) (supplierId productId : Int) :
    Option SupplierInventory :=
  db.supplierInventory.find?
    (fun i => i.supplierId == supplierId && i.productId == productId)

/-- DatabaseStorage.updateInventory: upsert keyed by (supplierId, productId);
both branches then write `Product.stock` through `updateProduct`. -/
def updateInventory (db : DbState) (supplierId productId stock : Int) :
    Option SupplierInventory × DbState :=
  match findInventory db supplierId productId with
  | none =>
      let newInventory : SupplierInventory :=
        { id := db.inventorySeq, supplierId := supplierId, productId := productId,
          availableStock := stock, updatedAt := db.now }
      let db1 := { db with supplierInventory := db.supplierInventory ++ [newInventory],
                           inventorySeq := db.inventorySeq + 1 }
      let db2 := (updateProduct db1 productId { stock := some stock }).2
      (some newInventory, db2)
  | some inv =>
      let inventory' := db.supplierInventory.map (fun i =>
        if i.supplierId == supplierId && i.productId == productId then
          { i with availableStock := stock, updatedAt := db.now }
        else i)
      let db1 := { db with supplierInventory := inventory' }
      let db2 := (updateProduct db1 productId { stock := some stock }).2
      (some { inv with availableStock := stock, updatedAt := db.now }, db2)

/-- DatabaseStorage.createReview: the same zero/negative/absent customerId
normalisation as the in-memory variant; the serial id and the `createdAt`
column default are modelled from the spec (`createReview` stamps createdAt),
the schema file being outside the sources. -/
def createReview (db : DbState) (r : InsertReview) : Review × DbState :=
  let customerId : Option Int :=
    match r.customerId with
    | some v => if 0 < v then some v else none
    | none => none
  let newReview : Review :=
    { id := db.reviewSeq, productId := r.productId, customerId := customerId,
      rating := r.rating, comment := r.comment, createdAt := db.now }
  (newReview, { db with reviews := db.reviews ++ [newReview],
                        reviewSeq := db.reviewSeq + 1 })

end Db

/-- One line item of the order-creation request body. -/
structure OrderItemReq where
  productId : Int
  quantity : Int
  price : ℚ
deriving DecidableEq

/-- Body of `POST /api/orders` (after schema validation). -/
structure OrderBody where
  totalAmount : ℚ
  status : String
  paymentStatus : String
  items : List OrderItemReq := []
deriving DecidableEq

/-- Per-item work of the order route: add the order item, and when the
product exists clamp its stock at zero, write it back, and mirror the value
into the supplier's inventory row. -/
def processOrderItem (orderId : Int) (db : DbState) (item : OrderItemReq) : DbState :=
  let db1 := (Db.addOrderItem db
    { orderId := orderId, productId := item.productId,
      quantity := item.quantity, price := item.price }).2
  match Db.getProduct db1 item.productId with
  | some product =>
      let newStock := max 0 (product.stock - item.quantity)
      let db2 := (Db.updateProduct db1 item.productId { stock := some newStock }).2
      (Db.updateInventory db2 product.supplierId product.id newStock).2
  | none => db1

/-- The `POST /api/orders` handler (storage bound to `DatabaseStorage`):
create the order for the calling customer, process each line item, then
clear the caller's cart. -/
def placeOrder (db : DbState) (userId : Int) (body : OrderBody) : Order × DbState :=
  let created := Db.createOrder db
    { customerId := userId, totalAmount := body.totalAmount,
      status := body.status, paymentStatus := body.paymentStatus }
  let db2 := body.items.foldl (processOrderItem created.1.id) created.2
  (created.1, (Db.updateCart db2 userId []).2)

/-- A serialized user-shaped response body: `password` and `orderCount` are
`none` exactly when the serialized object carries no such key. -/
structure UserResponse where
  id : Int
  username : String
  password : Option String
  email : String
  fullName : String
  role : String
  createdAt : Nat
  orderCount : Option Nat
deriving DecidableEq

/-- The destructuring `const (password, ...userWithoutPassword) = user`
followed by `res.json(userWithoutPassword)`. -/
def stripPassword (u : User) : UserResponse :=
  { id := u.id, username := u.username, password := none, email := u.email,
    fullName := u.fullName, role := u.role, createdAt := u.createdAt,
    orderCount := none }

/-- Body of a successful `POST /api/login` response. -/
def loginSuccessBody (u : User) : UserResponse := stripPassword u

/-- Body of a successful `POST /api/register` response. -/
def registerResponseBody (u : User) : UserResponse := stripPassword u

/-- Body of a successful `GET /api/user` response. -/
def apiUserBody (u : User) : UserResponse := stripPassword u

/-- Body of `GET /api/users/:id` for a found user: `res.json(user)` with the
full record, password included. -/
def userDetailBody (u : User) : UserResponse :=
  { id := u.id, username := u.username, password := some u.password,
    email := u.email, fullName := u.fullName, role := u.role,
    createdAt := u.createdAt, orderCount := none }

/-- One entry of the `GET /api/admin/customers` listing:
`\x7b ...customer, orderCount \x7d`, password included. -/
def adminCustomerEntry (u : User) (orderCount : Nat) : UserResponse :=
  { id := u.id, username := u.username, password := some u.password,
    email := u.email, fullName := u.fullName, role := u.role,
    createdAt := u.createdAt, orderCount := some orderCount }

/-- The `GET /api/admin/customers` body: every customer, decorated with that
customer's order count. -/
def adminCustomersBody (db : DbState) : List UserResponse :=
  (Db.getUsersByRole db "customer").map (fun c =>
    adminCustomerEntry c (Db.getOrders db { customerId := some c.id }).length)

/-- Splitting of a character list at dots, the model of JS `split(".")`. -/
def splitOnDotAux : List Char → List Char → List (List Char)
  | [], acc => [acc.reverse]
  | c :: rest, acc =>
      if c = '.' then acc.reverse :: splitOnDotAux rest []
      else splitOnDotAux rest (c :: acc)

/-- The `comparePasswords` helper: a stored value containing a dot is
`digest.salt` (compare the recomputed scrypt digest), otherwise legacy
plaintext (compare directly).  The scrypt derivation itself is an external
crypto primitive and is a parameter of the model; `includes(".")` and
`split(".")` are modelled over the string's character list. -/
def comparePasswords (scryptHex : String → String → String)
    (supplied stored : String) : Bool :=
  if stored.data.contains '.' then
    match splitOnDotAux stored.data [] with
    | hashed :: salt :: _ => scryptHex supplied (String.mk salt) == String.mk hashed
    | _ => false
  else
    supplied == stored

/-- The storage lookup backing the local strategy. -/
def getUserByUsername (users : List User) (username : String) : Option User :=
  users.find? (fun u => u.username == username)

/-- The LocalStrategy verify callback: `done(null, false)` (here `none`) both
when the username matches no user and when the password does not match. -/
def verifyUser (scryptHex : String → String → String) (users : List User)
    (username password : String) : Option User :=
  match getUserByUsername users username with
  | none => none
  | some user =>
      if comparePasswords scryptHex password user.password then some user else none

/-- Observable outcome of `POST /api/login`. -/
structure LoginResponse where
  status : Nat
  message : Option String
  user : Option UserResponse
deriving DecidableEq

/-- The `POST /api/login` handler: a failed authentication (for either
reason) yields `401 \x7bmessage: "Invalid credentials"\x7d`; success logs in
and returns the user without the password. -/
def loginRoute (scryptHex : String → String → String) (users : List User)
    (username password : String) : LoginResponse :=
  match verifyUser scryptHex users username password with
  | none => { status := 401, message := some "Invalid credentials", user := none }
  | some u => { status := 200, message := none, user := some (stripPassword u) }

/-- Key-uniqueness of a JS map image: `Map` keys never repeat. -/
abbrev keysNodup {α : Type} (m : List (Int × α)) : Prop :=
  (m.map Prod.fst).Nodup

/-- Alignment of a record's own id with its map key (`MemStorage` always
stores records under their id). -/
abbrev idAligned {α : Type} (f : α → Int) (m : List (Int × α)) : Prop :=
  ∀ e ∈ m, f e.2 = e.1

/-- Sample product row. -/
def sampleRow (id supplierId stock : Int) : ProductRow :=
  { id := id, name := "Urban Art Tee", description := "Premium cotton tee",
    price := 29, discount := 0, category := "t-shirts", imageUrls := [],
    availableSizes := [], availableColors := [], supplierId := supplierId,
    stock := stock, isActive := true }

/-- Sample product (active). -/
def sampleProduct (id supplierId stock : Int) : Product :=
  rowToProduct (sampleRow id supplierId stock)

/-- Sample review. -/
def sampleReview (id productId rating : Int) : Review :=
  { id := id, productId := productId, customerId := some 3, rating := rating,
    comment := "Great", createdAt := 0 }

/-- Sample order. -/
def sampleOrder (id customerId : Int) : Order :=
  { id := id, customerId := customerId, totalAmount := 100, status := "pending",
    paymentStatus := "unpaid", orderDate := 0 }

/-- Sample order item. -/
def sampleItem (id orderId productId : Int) : OrderItem :=
  { id := id, orderId := orderId, productId := productId, quantity := 1, price := 29 }

/-- Sample user. -/
def sampleUser (id : Int) (username password role : String) : User :=
  { id := id, username := username, password := password, email := "a@b.c",
    fullName := "Sample User", role := role, createdAt := 0 }

/-- In-memory state with one product and no inventory rows: forces the
insert branch of `MemStorage.updateInventory`. -/
def memNoInv : MemState :=
  { products := [(1, sampleProduct 1 2 5)], inventoryIdCounter := 1 }

/-- In-memory state with one product and a matching inventory row: forces the
update branch of `MemStorage.updateInventory`. -/
def memWithInv : MemState :=
  { products := [(1, sampleProduct 1 2 5)],
    supplierInventories := [(10, { id := 10, supplierId := 2, productId := 1,
                                   availableStock := 5, updatedAt := 0 })] }

/-- Database state with one product and no inventory rows. -/
def dbOneProduct : DbState :=
  { products := [sampleRow 1 2 5] }

/-- In-memory state with one product that has a review and an inventory
row, for exercising `deleteProduct`. -/
def memProdWithDeps : MemState :=
  { products := [(1, sampleProduct 1 2 5)],
    supplierInventories := [(10, { id := 10, supplierId := 2, productId := 1,
                                   availableStock := 5, updatedAt := 0 })],
    reviews := [(1, sampleReview 1 1 5)] }

/-- In-memory state with one order owning two items and one item of another
order, for exercising `deleteOrder`. -/
def memOrderState : MemState :=
  { orders := [(1, sampleOrder 1 3)],
    orderItems := [(1, sampleItem 1 1 1), (2, sampleItem 2 1 2), (3, sampleItem 3 2 1)] }

/-- Database state mirroring `memOrderState`. -/
def dbOrderState : DbState :=
  { orders := [sampleOrder 1 3],
    orderItems := [sampleItem 1 1 1, sampleItem 2 1 2, sampleItem 3 2 1] }

/-- Database state for the order-placement example: product with stock 10. -/
def dbStock10 : DbState :=
  { products := [sampleRow 1 2 10] }

/-- The order body of the example: quantity 3 of product 1. -/
def orderBody3 : OrderBody :=
  { totalAmount := 90, status := "pending", paymentStatus := "unpaid",
    items := [{ productId := 1, quantity := 3, price := 29 }] }

/-- In-memory state with three products: an active one with a five-star
review, an active one with no reviews, and an inactive one with a five-star
review. -/
def memTrendingState : MemState :=
  { products := [(1, sampleProduct 1 2 5), (2, sampleProduct 2 2 5),
                 (3, { sampleProduct 3 2 5 with isActive := false })],
    reviews := [(1, sampleReview 1 1 5), (2, sampleReview 2 3 5)] }

/-- Review payload with a negative customerId. -/
def negReview : InsertReview :=
  { productId := 1, customerId := some (-3), rating := 5, comment := "ok" }

/-- Users list with a single hashed-password account, for the login model. -/
def authUsers : List User :=
  [sampleUser 1 "alice" "abc123.somesalt" "customer"]

/-- A stand-in scrypt derivation used only to evaluate the login model on
concrete inputs. -/
def dummyScrypt : String → String → String :=
  fun _ _ => "feedface"

/-- In-memory state with one product, for exercising `updateProduct`. -/
def memOneProduct : MemState :=
  { products := [(1, sampleProduct 1 2 5)] }

/-- Patch that sets only the id. -/
def idOnlyPatch : ProductPatch := { id := some 99 }

/-- Patch that sets only the name. -/
def namePatch : ProductPatch := { name := some "Better Tee" }

/-- The `InsertOrder` the order route builds from the request body and the
calling customer. -/
def routeInsertOrder (uid : Int) (tA : ℚ) (st ps : String) : InsertOrder :=
  { customerId := uid, totalAmount := tA, status := st, paymentStatus := ps }

/-- The `OrderBody` of a single-line-item order. -/
def singleItemBody (tA : ℚ) (st ps : String) (it : OrderItemReq) : OrderBody :=
  { totalAmount := tA, status := st, paymentStatus := ps, items := [it] }

/-- The id of the order the route creates before processing the line items. -/
def routeOrderId (db : DbState) (uid : Int) (body : OrderBody) : Int :=
  (Db.createOrder db
    (routeInsertOrder uid body.totalAmount body.status body.paymentStatus)).1.id

/-- The state right after the route's `createOrder`, before any line item is
processed. -/
def routeStateAfterOrder (db : DbState) (uid : Int) (body : OrderBody) : DbState :=
  (Db.createOrder db
    (routeInsertOrder uid body.totalAmount body.status body.paymentStatus)).2

/-- The list `getTrendingProducts` sorts: active products paired with their
average rating (named here so the proofs can speak about the pipeline's
intermediate stage; `Mem.getTrendingProducts` is definitionally the stable
descending sort of this pool, truncated and projected). -/
def trendingPool (s : MemState) : List (Product × ℚ) :=
  ((mapValues s.products).map (fun p => (p, Mem.avgRating s p.id))).filter
    (fun x => x.1.isActive)

theorem mapGet_mapSet_self {α : Type} (k : Int) (v : α) (m : List (Int × α)) :
    mapGet k (mapSet k v m) = some v := by
  induction m with
  | nil => simp [mapSet, mapGet]
  | cons e rest ih =>
      obtain ⟨k', v'⟩ := e
      by_cases h : k' = k
      · simp [mapSet, h, mapGet]
      · simp [mapSet, h, mapGet, ih]

theorem mapDelete_sublist {α : Type} (k : Int) (m : List (Int × α)) :
    (mapDelete k m).Sublist m := by
  induction m with
  | nil => simp [mapDelete]
  | cons e rest ih =>
      obtain ⟨k', v'⟩ := e
      by_cases h : k' = k
      · rw [mapDelete, if_pos h]
        exact List.sublist_cons_self (k', v') rest
      · rw [mapDelete, if_neg h]
        exact ih.cons₂ (k', v')

theorem mapGet_eq_none_of_not_mem {α : Type} (k : Int) (m : List (Int × α))
    (h : k ∉ m.map Prod.fst) : mapGet k m = none := by
  induction m with
  | nil => rfl
  | cons e rest ih =>
      obtain ⟨k', v'⟩ := e
      rw [List.map_cons, List.mem_cons, not_or] at h
      rw [mapGet, if_neg (fun hk => h.1 hk.symm), ih h.2]

theorem mapGet_mapDelete_self {α : Type} (k : Int) (m : List (Int × α))
    (h : keysNodup m) : mapGet k (mapDelete k m) = none := by
  induction m with
  | nil => rfl
  | cons e rest ih =>
      obtain ⟨k', v'⟩ := e
      unfold keysNodup at h
      rw [List.map_cons, List.nodup_cons] at h
      by_cases hk : k' = k
      · rw [mapDelete, if_pos hk]
        exact mapGet_eq_none_of_not_mem k rest (hk ▸ h.1)
      · rw [mapDelete, if_neg hk, mapGet, if_neg hk]
        exact ih h.2

theorem keysNodup_mapDelete {α : Type} (k : Int) (m : List (Int × α))
    (h : keysNodup m) : keysNodup (mapDelete k m) :=
  List.Nodup.sublist (List.Sublist.map Prod.fst (mapDelete_sublist k m)) h

theorem idAligned_mapDelete {α : Type} (f : α → Int) (k : Int) (m : List (Int × α))
    (h : idAligned f m) : idAligned f (mapDelete k m) :=
  fun e he => h e ((mapDelete_sublist k m).subset he)

theorem mapValues_mapDelete {α : Type} (f : α → Int) (k : Int) (m : List (Int × α))
    (h1 : keysNodup m) (h2 : idAligned f m) :
    mapValues (mapDelete k m) = (mapValues m).filter (fun v => !(f v == k)) := by
  induction m with
  | nil => rfl
  | cons e rest ih =>
      obtain ⟨k', v'⟩ := e
      unfold keysNodup at h1
      rw [List.map_cons, List.nodup_cons] at h1
      have hv' : f v' = k' := h2 (k', v') (by simp)
      have h2' : idAligned f rest := fun e he => h2 e (List.mem_cons_of_mem _ he)
      by_cases hk : k' = k
      · rw [mapDelete, if_pos hk]
        have hpred : (!(f v' == k)) = false := by simp [hv', hk]
        rw [show mapValues ((k', v') :: rest) = v' :: mapValues rest from rfl]
        rw [List.filter_cons, hpred]
        simp only [Bool.false_eq_true, if_false]
        symm
        rw [List.filter_eq_self]
        intro a ha
        rcases List.mem_map.mp ha with ⟨e, he, hea⟩
        have hfa : f a = e.1 := by rw [← hea]; exact h2' e he
        have hne : f a ≠ k := by
          intro hEq
          have hmem : e.1 ∈ rest.map Prod.fst := List.mem_map_of_mem Prod.fst he
          rw [← hfa, hEq, ← hk] at hmem
          exact h1.1 hmem
        simp [hne]
      · rw [mapDelete, if_neg hk]
        rw [show mapValues ((k', v') :: mapDelete k rest) = v' :: mapValues (mapDelete k rest) from rfl]
        rw [show mapValues ((k', v') :: rest) = v' :: mapValues rest from rfl]
        have hpred : (!(f v' == k)) = true := by simp [hv', hk]
        rw [List.filter_cons, hpred]
        simp only [if_true]
        rw [ih h1.2 h2']

theorem mapValues_foldl_mapDelete {α : Type} (f : α → Int) (its : List α)
    (m : List (Int × α)) (h1 : keysNodup m) (h2 : idAligned f m) :
    mapValues (its.foldl (fun acc it => mapDelete (f it) acc) m)
      = (mapValues m).filter (fun v => !((its.map f).contains (f v))) := by
  induction its generalizing m with
  | nil => simp
  | cons it its ih =>
      rw [List.foldl_cons,
          ih (mapDelete (f it) m) (keysNodup_mapDelete _ _ h1) (idAligned_mapDelete _ _ _ h2),
          mapValues_mapDelete f (f it) m h1 h2, List.filter_filter]
      apply List.filter_congr
      intro a _
      simp only [List.map_cons, List.contains_cons, Bool.not_or]
      rw [Bool.and_comm]

theorem mem_mapValues_mapSet {α : Type} (k : Int) (v : α) (m : List (Int × α)) :
    v ∈ mapValues (mapSet k v m) := by
  induction m with
  | nil => simp [mapSet, mapValues]
  | cons e rest ih =>
      obtain ⟨k', v'⟩ := e
      by_cases h : k' = k
      · simp [mapSet, h, mapValues]
      · simp only [mapSet, if_neg h]
        rw [show mapValues ((k', v') :: mapSet k v rest) = v' :: mapValues (mapSet k v rest) from rfl]
        exact List.mem_cons_of_mem _ ih

theorem find?_map_of_pred_inv {α : Type} (f : α → α) (p : α → Bool)
    (h : ∀ a, p (f a) = p a) (l : List α) :
    (l.map f).find? p = (l.find? p).map f := by
  induction l with
  | nil => rfl
  | cons a l ih =>
      rw [List.map_cons]
      by_cases hp : p a = true
      · rw [List.find?_cons_of_pos _ (by rw [h a]; exact hp), List.find?_cons_of_pos _ hp]
        rfl
      · rw [List.find?_cons_of_neg _ (by rw [h a]; exact hp), List.find?_cons_of_neg _ hp, ih]

theorem applyRowPatch_stock (r : ProductRow) (n : Int) :
    applyRowPatch r { stock := some n } = { r with stock := n } := rfl

theorem stockPatch_hasUpdates (n : Int) :
    patchHasUpdates { stock := some n } = true := rfl

theorem updateStock_state (db : DbState) (pid n : Int) :
    (Db.updateProduct db pid { stock := some n }).2
      = { db with products :=
            db.products.map (fun r => if r.id == pid then applyRowPatch r { stock := some n } else r) } := by
  rw [Db.updateProduct, if_pos (stockPatch_hasUpdates n)]

theorem rowUpdate_pred_inv (pid : Int) (u : ProductPatch) (r : ProductRow) :
    ((if r.id == pid then applyRowPatch r u else r).id == pid) = (r.id == pid) := by
  by_cases h : (r.id == pid) = true
  · rw [if_pos h, applyRowPatch]
  · rw [if_neg h]

theorem find?_products_updateStock (l : List ProductRow) (pid n : Int) :
    (l.map (fun r => if r.id == pid then applyRowPatch r { stock := some n } else r)).find?
        (fun r => r.id == pid)
      = (l.find? (fun r => r.id == pid)).map (fun r => { r with stock := n }) := by
  rw [find?_map_of_pred_inv _ _ (rowUpdate_pred_inv pid _) l]
  cases hf : l.find? (fun r => r.id == pid) with
  | none => rfl
  | some r =>
      have hp := List.find?_some hf
      simp only [Option.map_some', hp, if_pos, applyRowPatch_stock]

theorem getProduct_updateStock (db : DbState) (pid n : Int) :
    Db.getProduct (Db.updateProduct db pid { stock := some n }).2 pid
      = (Db.getProduct db pid).map (fun q => { q with stock := n }) := by
  rw [Db.getProduct, updateStock_state, Db.getProduct]
  simp only []
  rw [find?_products_updateStock]
  cases db.products.find? (fun r => r.id == pid) with
  | none => rfl
  | some r => rfl

theorem updateProduct_inventory_frame (db : DbState) (pid : Int) (u : ProductPatch) :
    (Db.updateProduct db pid u).2.supplierInventory = db.supplierInventory := by
  rw [Db.updateProduct]
  split <;> rfl

theorem updateProduct_carts_frame (db : DbState) (pid : Int) (u : ProductPatch) :
    (Db.updateProduct db pid u).2.carts = db.carts := by
  rw [Db.updateProduct]
  split <;> rfl

theorem updateInventory_products (db : DbState) (sup pid n : Int) :
    (Db.updateInventory db sup pid n).2.products
      = db.products.map (fun r => if r.id == pid then applyRowPatch r { stock := some n } else r) := by
  rw [Db.updateInventory]
  cases h : Db.findInventory db sup pid <;>
    simp only [updateStock_state]

theorem updateInventory_carts_frame (db : DbState) (sup pid n : Int) :
    (Db.updateInventory db sup pid n).2.carts = db.carts := by
  rw [Db.updateInventory]
  cases h : Db.findInventory db sup pid <;>
    simp only [updateStock_state]

theorem invRow_pred_inv (sup pid n : Int) (now : Nat) (i : SupplierInventory) :
    (((if i.supplierId == sup && i.productId == pid then
          { i with availableStock := n, updatedAt := now } else i).supplierId == sup
      && (if i.supplierId == sup && i.productId == pid then
          { i with availableStock := n, updatedAt := now } else i).productId == pid))
      = (i.supplierId == sup && i.productId == pid) := by
  by_cases h : (i.supplierId == sup && i.productId == pid) = true
  · rw [if_pos h]
  · rw [if_neg h]

theorem updateInventory_row (db : DbState) (sup pid n : Int) :
    (Db.findInventory (Db.updateInventory db sup pid n).2 sup pid).map
        SupplierInventory.availableStock = some n := by
  rw [Db.updateInventory]
  cases h : Db.findInventory db sup pid with
  | none =>
      simp only []
      rw [Db.findInventory, updateProduct_inventory_frame]
      simp only []
      rw [List.find?_append]
      rw [Db.findInventory] at h
      rw [h]
      simp
  | some inv =>
      simp only []
      rw [Db.findInventory, updateProduct_inventory_frame]
      simp only []
      rw [find?_map_of_pred_inv _ _ (invRow_pred_inv sup pid n db.now)]
      rw [Db.findInventory] at h
      rw [h]
      have hp := List.find?_some h
      simp only [Option.map_some', if_pos hp]

theorem getCart_updateCart (db : DbState) (u : Int) (its : List CartItem) :
    (Db.getCart (Db.updateCart db u its).2 u).map Cart.items = some its := by
  rw [Db.updateCart]
  cases h : db.carts.find? (fun c => c.userId == u) with
  | none =>
      simp only [Db.getCart]
      rw [List.find?_append, h]
      simp
  | some c0 =>
      simp only [Db.getCart]
      have hinv : ∀ c : Cart,
          ((if c.userId == u then { c with items := its, updatedAt := db.now } else c).userId == u)
            = (c.userId == u) := by
        intro c
        by_cases hc : (c.userId == u) = true
        · rw [if_pos hc]
        · rw [if_neg hc]
      rw [find?_map_of_pred_inv _ _ hinv, h]
      have hp := List.find?_some h
      simp only [Option.map_some', if_pos hp]

theorem getProduct_congr {db1 db2 : DbState} (pid : Int)
    (h : db1.products = db2.products) : Db.getProduct db1 pid = Db.getProduct db2 pid := by
  rw [Db.getProduct, Db.getProduct, h]

theorem findInventory_congr {db1 db2 : DbState} (sup pid : Int)
    (h : db1.supplierInventory = db2.supplierInventory) :
    Db.findInventory db1 sup pid = Db.findInventory db2 sup pid := by
  rw [Db.findInventory, Db.findInventory, h]

/-- C1 counterexample: in `MemStorage`, with a product in stock 5 and no
inventory row, `updateInventory(2, 1, 7)` takes the insert branch and a
subsequent `getProduct 1` still reports stock 5, not 7. -/
theorem C1_counterexample :
    ¬ ((Mem.getProduct (Mem.updateInventory memNoInv 2 1 7).2 1).map Product.stock
        = some 7) := by
  decide

/-- C1 (amended): in `DatabaseStorage` every `updateInventory` on an existing
product (either branch) also writes `Product.stock`, so `getProduct` then
reports the new value; in `MemStorage` this holds only on the update branch
(an inventory row for the (supplier, product) pair already exists) — the
insert branch leaves `Product.stock` untouched. -/
theorem C1_inventory_write_stock :
    (∀ (db : DbState) (sup pid n : Int) (p : Product),
        Db.getProduct db pid = some p →
        (Db.getProduct (Db.updateInventory db sup pid n).2 pid).map Product.stock
          = some n)
  ∧ (∀ (s : MemState) (sup pid n : Int) (inv : SupplierInventory) (p : Product),
        Mem.findInventory s sup pid = some inv →
        Mem.getProduct s pid = some p →
        (Mem.getProduct (Mem.updateInventory s sup pid n).2 pid).map Product.stock
          = some n) := by
  constructor
  · intro db sup pid n p hp
    have h1 : (Db.updateInventory db sup pid n).2.products
        = (Db.updateProduct db pid { stock := some n }).2.products := by
      rw [updateInventory_products, updateStock_state]
    rw [getProduct_congr pid h1, getProduct_updateStock, hp]
    rfl
  · intro s sup pid n inv p hinv hp
    have hget : mapGet pid s.products = some p := hp
    simp only [Mem.updateInventory, hinv, Mem.getProduct, Mem.updateProduct, hget,
               mapGet_mapSet_self, Option.map_some']
    rfl

/-- C1 witness: concrete runs through both parts of the amended statement. -/
theorem C1_witness :
    (Db.getProduct (Db.updateInventory dbOneProduct 2 1 7).2 1).map Product.stock
      = some 7
  ∧ (Mem.getProduct (Mem.updateInventory memWithInv 2 1 7).2 1).map Product.stock
      = some 7 :=
  ⟨C1_inventory_write_stock.1 dbOneProduct 2 1 7 (sampleProduct 1 2 5) (by decide),
   C1_inventory_write_stock.2 memWithInv 2 1 7
     { id := 10, supplierId := 2, productId := 1, availableStock := 5, updatedAt := 0 }
     (sampleProduct 1 2 5) (by decide) (by decide)⟩

/-- C2 counterexample: `MemStorage.deleteProduct` is a bare map delete — with
a product that has a review, deleting the product leaves its review rows in
place, contradicting the claimed cascade. -/
theorem C2_counterexample :
    ¬ ((mapValues (Mem.deleteProduct memProdWithDeps 1).2.reviews).filter
        (fun r => r.productId == 1) = []) := by
  decide

/-- C2 (amended): `DatabaseStorage.deleteProduct` cascades — it removes all
SupplierInventory and Review rows of the product before the product row and
returns whether a product row was removed; `MemStorage.deleteProduct` only
removes the product map entry (reviews and inventories are untouched) and
returns whether it was present. -/
theorem C2_deleteProduct_cascade :
    (∀ (db : DbState) (pid : Int),
        (Db.deleteProduct db pid).2.supplierInventory.filter
          (fun i => i.productId == pid) = []
      ∧ (Db.deleteProduct db pid).2.reviews.filter (fun r => r.productId == pid) = []
      ∧ Db.getProduct (Db.deleteProduct db pid).2 pid = none
      ∧ ((Db.deleteProduct db pid).1 = true ↔ ∃ r ∈ db.products, r.id = pid))
  ∧ (∀ (s : MemState) (pid : Int),
        keysNodup s.products →
          mapGet pid (Mem.deleteProduct s pid).2.products = none
        ∧ (Mem.deleteProduct s pid).2.reviews = s.reviews
        ∧ (Mem.deleteProduct s pid).2.supplierInventories = s.supplierInventories
        ∧ (Mem.deleteProduct s pid).1 = (mapGet pid s.products).isSome) := by
  constructor
  · intro db pid
    refine ⟨?_, ?_, ?_, ?_⟩
    · show (db.supplierInventory.filter (fun i => !(i.productId == pid))).filter
          (fun i => i.productId == pid) = []
      rw [List.filter_filter, List.filter_eq_nil_iff]
      intro i _
      simp
    · show (db.reviews.filter (fun r => !(r.productId == pid))).filter
          (fun r => r.productId == pid) = []
      rw [List.filter_filter, List.filter_eq_nil_iff]
      intro r _
      simp
    · show ((db.products.filter (fun r => !(r.id == pid))).find?
          (fun r => r.id == pid)).map rowToProduct = none
      rw [Option.map_eq_none', List.find?_eq_none]
      intro r hr
      have h2 := (List.mem_filter.mp hr).2
      simp only [Bool.not_eq_true'] at h2
      simp [h2]
    · show (!(db.products.filter (fun r => r.id == pid)).isEmpty) = true
          ↔ ∃ r ∈ db.products, r.id = pid
      rw [Bool.not_eq_eq_eq_not]
      simp [List.isEmpty_iff, List.filter_eq_nil_iff]
  · intro s pid h
    exact ⟨mapGet_mapDelete_self pid s.products h, rfl, rfl, rfl⟩

/-- C5: in both implementations `deleteOrder` removes every order item of the
order (children first) and the order row itself, and reports whether the
order row existed; a subsequent `getOrderItems` is empty.  The in-memory part
assumes the map well-formedness that `MemStorage` maintains (unique keys,
records stored under their own id). -/
theorem C5_deleteOrder_cascade :
    (∀ (s : MemState) (oid : Int),
        keysNodup s.orderItems → idAligned OrderItem.id s.orderItems →
        keysNodup s.orders →
          Mem.getOrderItems (Mem.deleteOrder s oid).2 oid = []
        ∧ mapGet oid (Mem.deleteOrder s oid).2.orders = none
        ∧ (Mem.deleteOrder s oid).1 = (mapGet oid s.orders).isSome)
  ∧ (∀ (db : DbState) (oid : Int),
        Db.getOrderItems (Db.deleteOrder db oid).2 oid = []
      ∧ Db.getOrder (Db.deleteOrder db oid).2 oid = none
      ∧ ((Db.deleteOrder db oid).1 = true ↔ ∃ o ∈ db.orders, o.id = oid)) := by
  constructor
  · intro s oid h1 h2 h3
    refine ⟨?_, ?_, rfl⟩
    · show (mapValues ((Mem.getOrderItems s oid).foldl
          (fun m it => mapDelete it.id m) s.orderItems)).filter
          (fun it => it.orderId == oid) = []
      rw [mapValues_foldl_mapDelete OrderItem.id (Mem.getOrderItems s oid)
            s.orderItems h1 h2]
      rw [List.filter_filter, List.filter_eq_nil_iff]
      intro v hv hcon
      rw [Bool.and_eq_true] at hcon
      obtain ⟨ho, hnc⟩ := hcon
      have hvitems : v ∈ Mem.getOrderItems s oid :=
        List.mem_filter.mpr ⟨hv, ho⟩
      have hmem : v.id ∈ (Mem.getOrderItems s oid).map OrderItem.id :=
        List.mem_map_of_mem _ hvitems
      simp [hmem] at hnc
    · exact mapGet_mapDelete_self oid s.orders h3
  · intro db oid
    refine ⟨?_, ?_, ?_⟩
    · show (db.orderItems.filter (fun it => !(it.orderId == oid))).filter
          (fun it => it.orderId == oid) = []
      rw [List.filter_filter, List.filter_eq_nil_iff]
      intro it _
      simp
    · show (db.orders.filter (fun o => !(o.id == oid))).find?
          (fun o => o.id == oid) = none
      rw [List.find?_eq_none]
      intro o ho
      have h2 := (List.mem_filter.mp ho).2
      simp only [Bool.not_eq_true'] at h2
      simp [h2]
    · show (!(db.orders.filter (fun o => o.id == oid)).isEmpty) = true
          ↔ ∃ o ∈ db.orders, o.id = oid
      rw [Bool.not_eq_eq_eq_not]
      simp [List.isEmpty_iff, List.filter_eq_nil_iff]

/-- C5 witness: deleting order 1 in the sample states clears its items and
reports removal, in both implementations. -/
theorem C5_witness :
    Mem.getOrderItems (Mem.deleteOrder memOrderState 1).2 1 = []
  ∧ (Mem.deleteOrder memOrderState 1).1 = true
  ∧ Db.getOrderItems (Db.deleteOrder dbOrderState 1).2 1 = []
  ∧ (Db.deleteOrder dbOrderState 1).1 = true := by
  have hm := C5_deleteOrder_cascade.1 memOrderState 1 (by decide) (by decide) (by decide)
  have hd := C5_deleteOrder_cascade.2 dbOrderState 1
  refine ⟨hm.1, ?_, hd.1, ?_⟩
  · rw [hm.2.2]
    decide
  · exact hd.2.2.mpr ⟨sampleOrder 1 3, by decide, by decide⟩

/-- C4 counterexample: the `GET /api/users/:id` handler serializes the full
user record, so for a concrete user the response body does carry a password
attribute, contradicting the claim that every user-shaped response omits it. -/
theorem C4_counterexample :
    ¬ ((userDetailBody (sampleUser 1 "alice" "secret" "customer")).password = none) := by
  decide

/-- C4 (amended): login, register and `GET /api/user` strip the password from
the response body, but the admin user-detail route (`GET /api/users/:id`) and
the admin customer listing return user records that retain the stored
password. -/
theorem C4_password_stripping :
    ∀ (u : User) (n : Nat),
      (loginSuccessBody u).password = none
    ∧ (registerResponseBody u).password = none
    ∧ (apiUserBody u).password = none
    ∧ (userDetailBody u).password = some u.password
    ∧ (adminCustomerEntry u n).password = some u.password := by
  intro u n
  exact ⟨rfl, rfl, rfl, rfl, rfl⟩

/-- C7: `createReview` stores a null customerId exactly when the submitted
customerId is absent, zero or negative, keeps a positive customerId, stamps
createdAt from the clock, assigns the next id, and the returned record is
the stored one — in both implementations. -/
theorem C7_createReview_normalisation :
    (∀ (s : MemState) (r : InsertReview),
        (Mem.createReview s r).1 ∈ mapValues (Mem.createReview s r).2.reviews
      ∧ (Mem.createReview s r).1.id = s.reviewIdCounter
      ∧ (Mem.createReview s r).1.createdAt = s.now
      ∧ (r.customerId = none → (Mem.createReview s r).1.customerId = none)
      ∧ (∀ v, r.customerId = some v → v ≤ 0 → (Mem.createReview s r).1.customerId = none)
      ∧ (∀ v, r.customerId = some v → 0 < v → (Mem.createReview s r).1.customerId = some v))
  ∧ (∀ (db : DbState) (r : InsertReview),
        (Db.createReview db r).1 ∈ (Db.createReview db r).2.reviews
      ∧ (Db.createReview db r).1.id = db.reviewSeq
      ∧ (Db.createReview db r).1.createdAt = db.now
      ∧ (r.customerId = none → (Db.createReview db r).1.customerId = none)
      ∧ (∀ v, r.customerId = some v → v ≤ 0 → (Db.createReview db r).1.customerId = none)
      ∧ (∀ v, r.customerId = some v → 0 < v → (Db.createReview db r).1.customerId = some v)) := by
  constructor
  · intro s r
    refine ⟨mem_mapValues_mapSet _ _ _, rfl, rfl, ?_, ?_, ?_⟩
    · intro h
      simp [Mem.createReview, h]
    · intro v hv hle
      simp [Mem.createReview, hv, not_lt.mpr hle]
    · intro v hv hlt
      simp [Mem.createReview, hv, hlt]
  · intro db r
    refine ⟨by simp [Db.createReview], rfl, rfl, ?_, ?_, ?_⟩
    · intro h
      simp [Db.createReview, h]
    · intro v hv hle
      simp [Db.createReview, hv, not_lt.mpr hle]
    · intro v hv hlt
      simp [Db.createReview, hv, hlt]

/-- C7 witness: a review submitted with customerId −3 is stored with a null
customerId (in-memory implementation, fresh state). -/
theorem C7_witness :
    (Mem.createReview {} negReview).1.customerId = none :=
  (C7_createReview_normalisation.1 {} negReview).2.2.2.2.1 (-3) rfl (by decide)

/-- C8: login failure is observationally uniform — an unknown username and a
known username with a wrong password produce the same response, namely the
401 "Invalid credentials" body, for any scrypt derivation. -/
theorem C8_login_uniform (scryptHex : String → String → String)
    (users : List User) (u1 p1 u2 p2 : String) (user : User)
    (h1 : getUserByUsername users u1 = none)
    (h2 : getUserByUsername users u2 = some user)
    (h3 : comparePasswords scryptHex p2 user.password = false) :
    loginRoute scryptHex users u1 p1 = loginRoute scryptHex users u2 p2
  ∧ loginRoute scryptHex users u1 p1
      = { status := 401, message := some "Invalid credentials", user := none } := by
  have e1 : loginRoute scryptHex users u1 p1
      = { status := 401, message := some "Invalid credentials", user := none } := by
    rw [loginRoute, verifyUser, h1]
  have e2 : loginRoute scryptHex users u2 p2
      = { status := 401, message := some "Invalid credentials", user := none } := by
    rw [loginRoute, verifyUser, h2]
    simp only [h3, Bool.false_eq_true, if_false]
  exact ⟨e1.trans e2.symm, e1⟩

/-- C8 witness: concrete states — "bob" does not exist, "alice" exists with a
hashed password that a wrong supplied password fails to match; the two login
responses coincide. -/
theorem C8_witness :
    loginRoute dummyScrypt authUsers "bob" "whatever"
      = loginRoute dummyScrypt authUsers "alice" "wrongpw"
  ∧ loginRoute dummyScrypt authUsers "bob" "whatever"
      = { status := 401, message := some "Invalid credentials", user := none } :=
  C8_login_uniform dummyScrypt authUsers "bob" "whatever" "alice" "wrongpw"
    (sampleUser 1 "alice" "abc123.somesalt" "customer")
    (by decide) (by decide) (by decide)

/-- C9 counterexample: the spread merge lets a patch overwrite the id — with
`updateProduct 1 (id := 99)` the returned record's id is 99, not 1, so "the
record's id is unchanged" fails for patches that set id. -/
theorem C9_counterexample :
    ¬ (((Mem.updateProduct memOneProduct 1 idOnlyPatch).1).map Product.id = some 1) := by
  decide

/-- C9 (amended): `updateProduct` and `updateOrder` are partial merges — every
field absent from the patch (the id included) keeps its prior value in the
returned and stored record, the id is unchanged provided the patch does not
set it, and a miss returns the absent result leaving the state untouched. -/
theorem C9_partial_merge :
    (∀ (s : MemState) (pid : Int) (u : ProductPatch) (p : Product),
        mapGet pid s.products = some p →
        ∃ q, (Mem.updateProduct s pid u).1 = some q
          ∧ mapGet pid (Mem.updateProduct s pid u).2.products = some q
          ∧ (u.name = none → q.name = p.name)
          ∧ (u.description = none → q.description = p.description)
          ∧ (u.price = none → q.price = p.price)
          ∧ (u.discount = none → q.discount = p.discount)
          ∧ (u.category = none → q.category = p.category)
          ∧ (u.imageUrls = none → q.imageUrls = p.imageUrls)
          ∧ (u.availableSizes = none → q.availableSizes = p.availableSizes)
          ∧ (u.availableColors = none → q.availableColors = p.availableColors)
          ∧ (u.supplierId = none → q.supplierId = p.supplierId)
          ∧ (u.stock = none → q.stock = p.stock)
          ∧ (u.isActive = none → q.isActive = p.isActive)
          ∧ (u.comingSoon = none → q.comingSoon = p.comingSoon)
          ∧ (u.releaseDate = none → q.releaseDate = p.releaseDate)
          ∧ (u.id = none → q.id = p.id))
  ∧ (∀ (s : MemState) (pid : Int) (u : ProductPatch),
        mapGet pid s.products = none → Mem.updateProduct s pid u = (none, s))
  ∧ (∀ (s : MemState) (oid : Int) (u : OrderPatch) (o : Order),
        mapGet oid s.orders = some o →
        ∃ q, (Mem.updateOrder s oid u).1 = some q
          ∧ mapGet oid (Mem.updateOrder s oid u).2.orders = some q
          ∧ (u.customerId = none → q.customerId = o.customerId)
          ∧ (u.totalAmount = none → q.totalAmount = o.totalAmount)
          ∧ (u.status = none → q.status = o.status)
          ∧ (u.paymentStatus = none → q.paymentStatus = o.paymentStatus)
          ∧ (u.orderDate = none → q.orderDate = o.orderDate)
          ∧ (u.id = none → q.id = o.id))
  ∧ (∀ (s : MemState) (oid : Int) (u : OrderPatch),
        mapGet oid s.orders = none → Mem.updateOrder s oid u = (none, s)) := by
  refine ⟨?_, ?_, ?_, ?_⟩
  · intro s pid u p hp
    simp only [Mem.updateProduct, hp]
    refine ⟨mergeProduct p u, rfl, mapGet_mapSet_self _ _ _,
      ?_, ?_, ?_, ?_, ?_, ?_, ?_, ?_, ?_, ?_, ?_, ?_, ?_, ?_⟩ <;>
      (intro h; simp [mergeProduct, h])
  · intro s pid u hp
    simp only [Mem.updateProduct, hp]
  · intro s oid u o ho
    simp only [Mem.updateOrder, ho]
    refine ⟨mergeOrder o u, rfl, mapGet_mapSet_self _ _ _,
      ?_, ?_, ?_, ?_, ?_, ?_⟩ <;>
      (intro h; simp [mergeOrder, h])
  · intro s oid u ho
    simp only [Mem.updateOrder, ho]

/-- C9 witness: a miss leaves the state untouched, and a name-only patch on
product 1 keeps its stock. -/
theorem C9_witness :
    Mem.updateProduct memOneProduct 2 namePatch = (none, memOneProduct)
  ∧ ((Mem.updateProduct memOneProduct 1 namePatch).1).map Product.stock = some 5 := by
  refine ⟨C9_partial_merge.2.1 memOneProduct 2 namePatch (by decide), ?_⟩
  obtain ⟨q, h1, _, _, _, _, _, _, _, _, _, _, hstock, _, _, _, _⟩ :=
    C9_partial_merge.1 memOneProduct 1 namePatch (sampleProduct 1 2 5) (by decide)
  rw [h1, Option.map_some', hstock rfl]
  decide

/-- C10: `category := ""` and `supplierId := 0` (and `customerId := 0` for
orders) are falsy and behave exactly like the omitted filter; `getOrders`
with customerId 0 returns every order; by contrast `isActive := false` and
`comingSoon := false` act as genuine constraints (a product lacking the
comingSoon property never matches). -/
theorem C10_falsy_filters (s : MemState) (f : ProductFilters) (g : OrderFilters) :
    Mem.getProducts s { f with category := some "" }
      = Mem.getProducts s { f with category := none }
  ∧ Mem.getProducts s { f with supplierId := some 0 }
      = Mem.getProducts s { f with supplierId := none }
  ∧ Mem.getOrders s { g with customerId := some 0 }
      = Mem.getOrders s { g with customerId := none }
  ∧ Mem.getOrders s { customerId := some 0, status := none } = mapValues s.orders
  ∧ Mem.getProducts s { isActive := some false }
      = (mapValues s.products).filter (fun p => p.isActive == false)
  ∧ Mem.getProducts s { comingSoon := some false }
      = (mapValues s.products).filter (fun p =>
          match p.comingSoon with
          | some pc => pc == false
          | none => false) := by
  refine ⟨?_, ?_, ?_, ?_, ?_, ?_⟩ <;>
    simp [Mem.getProducts, Mem.getOrders]

theorem updateCart_products_frame (db : DbState) (u : Int) (its : List CartItem) :
    (Db.updateCart db u its).2.products = db.products := by
  rw [Db.updateCart]
  cases hfind : db.carts.find? (fun c => c.userId == u) <;> rfl

theorem updateCart_inventory_frame (db : DbState) (u : Int) (its : List CartItem) :
    (Db.updateCart db u its).2.supplierInventory = db.supplierInventory := by
  rw [Db.updateCart]
  cases hfind : db.carts.find? (fun c => c.userId == u) <;> rfl

theorem getProduct_after_updateInventory (db : DbState) (sup pid n : Int) :
    Db.getProduct (Db.updateInventory db sup pid n).2 pid
      = (Db.getProduct db pid).map (fun q => { q with stock := n }) := by
  have h3 : (Db.updateInventory db sup pid n).2.products
      = (Db.updateProduct db pid { stock := some n }).2.products := by
    rw [updateInventory_products, updateStock_state]
  rw [getProduct_congr pid h3, getProduct_updateStock]

theorem processOrderItem_spec (oid : Int) (db : DbState) (it : OrderItemReq)
    (p : Product) (hp : Db.getProduct db it.productId = some p) :
    (Db.getProduct (processOrderItem oid db it) it.productId).map Product.stock
        = some (max 0 (p.stock - it.quantity))
  ∧ (Db.findInventory (processOrderItem oid db it) p.supplierId p.id).map
        SupplierInventory.availableStock = some (max 0 (p.stock - it.quantity)) := by
  obtain ⟨r, hr, hrp⟩ := Option.map_eq_some'.mp hp
  have hrid : r.id = it.productId := by simpa using List.find?_some hr
  have hpid : p.id = it.productId := by
    rw [← hrp]
    exact hrid
  have hp1 : Db.getProduct (Db.addOrderItem db
      { orderId := oid, productId := it.productId, quantity := it.quantity,
        price := it.price }).2 it.productId = some p := hp
  rw [processOrderItem]
  simp only [hp1]
  constructor
  · rw [← hpid]
    rw [← hpid] at hp1
    rw [getProduct_after_updateInventory, getProduct_updateStock, hp1]
    rfl
  · exact updateInventory_row _ p.supplierId p.id _

theorem rowUpdate_id_pred_inv (pid qid : Int) (u : ProductPatch) (r : ProductRow) :
    ((if r.id == qid then applyRowPatch r u else r).id == pid) = (r.id == pid) := by
  by_cases h : (r.id == qid) = true
  · rw [if_pos h, applyRowPatch]
  · rw [if_neg h]

theorem find?_updateStock_frame (l : List ProductRow) (qid n pid : Int)
    (hne : pid ≠ qid) :
    (l.map (fun r => if r.id == qid then applyRowPatch r { stock := some n } else r)).find?
        (fun r => r.id == pid)
      = l.find? (fun r => r.id == pid) := by
  rw [find?_map_of_pred_inv _ _ (rowUpdate_id_pred_inv pid qid _) l]
  cases hf : l.find? (fun r => r.id == pid) with
  | none => rfl
  | some r =>
      have hrid : r.id = pid := by simpa using List.find?_some hf
      simp [hrid, hne]

theorem getProduct_updateStock_frame (db : DbState) (qid n pid : Int)
    (hne : pid ≠ qid) :
    Db.getProduct (Db.updateProduct db qid { stock := some n }).2 pid
      = Db.getProduct db pid := by
  rw [Db.getProduct, updateStock_state, Db.getProduct]
  simp only []
  rw [find?_updateStock_frame db.products qid n pid hne]

theorem getProduct_updateInventory_frame (db : DbState) (sup qid n pid : Int)
    (hne : pid ≠ qid) :
    Db.getProduct (Db.updateInventory db sup qid n).2 pid = Db.getProduct db pid := by
  have h3 : (Db.updateInventory db sup qid n).2.products
      = (Db.updateProduct db qid { stock := some n }).2.products := by
    rw [updateInventory_products, updateStock_state]
  rw [getProduct_congr pid h3, getProduct_updateStock_frame db qid n pid hne]

theorem find?_append_singleton {α : Type} (l : List α) (p : α → Bool) (x : α)
    (hx : p x = false) : List.find? p (l ++ [x]) = List.find? p l := by
  rw [List.find?_append, List.find?_cons_of_neg _ (by simp [hx])]
  cases List.find? p l <;> rfl

theorem invRow_anyPred_inv (sup' qid n : Int) (now : Nat) (sup pid : Int)
    (i : SupplierInventory) :
    (((if i.supplierId == sup' && i.productId == qid then
          { i with availableStock := n, updatedAt := now } else i).supplierId == sup
      && (if i.supplierId == sup' && i.productId == qid then
          { i with availableStock := n, updatedAt := now } else i).productId == pid))
      = (i.supplierId == sup && i.productId == pid) := by
  by_cases h : (i.supplierId == sup' && i.productId == qid) = true
  · rw [if_pos h]
  · rw [if_neg h]

theorem findInventory_updateInventory_frame (db : DbState) (sup' qid n sup pid : Int)
    (hne : pid ≠ qid) :
    Db.findInventory (Db.updateInventory db sup' qid n).2 sup pid
      = Db.findInventory db sup pid := by
  rw [Db.updateInventory]
  cases h : Db.findInventory db sup' qid with
  | none =>
      simp only [Db.findInventory, updateProduct_inventory_frame]
      exact find?_append_singleton _ _ _ (by simp [Ne.symm hne])
  | some inv =>
      simp only [Db.findInventory, updateProduct_inventory_frame]
      rw [find?_map_of_pred_inv _ _ (invRow_anyPred_inv sup' qid n db.now sup pid)]
      cases hf : db.supplierInventory.find?
          (fun i => i.supplierId == sup && i.productId == pid) with
      | none => rfl
      | some i =>
          have hp := List.find?_some hf
          rw [Bool.and_eq_true] at hp
          have hipid : i.productId = pid := by simpa using hp.2
          simp [hipid, hne]

theorem processOrderItem_frame (oid : Int) (db : DbState) (it' : OrderItemReq)
    (pid sup : Int) (hne : pid ≠ it'.productId) :
    Db.getProduct (processOrderItem oid db it') pid = Db.getProduct db pid
  ∧ Db.findInventory (processOrderItem oid db it') sup pid
      = Db.findInventory db sup pid := by
  rw [processOrderItem]
  cases h : Db.getProduct (Db.addOrderItem db { orderId := oid, productId := it'.productId, quantity := it'.quantity, price := it'.price }).2 it'.productId with
  | none => exact ⟨rfl, rfl⟩
  | some q =>
      obtain ⟨r, hr, hrq⟩ := Option.map_eq_some'.mp h
      have hqid : q.id = it'.productId := by
        rw [← hrq]
        simpa using List.find?_some hr
      have hneq : pid ≠ q.id := by
        rw [hqid]
        exact hne
      simp only []
      constructor
      · rw [getProduct_updateInventory_frame _ _ _ _ _ hneq,
            getProduct_updateStock_frame _ _ _ _ hne]
        rfl
      · rw [findInventory_updateInventory_frame _ _ _ _ _ _ hneq,
            findInventory_congr sup pid (updateProduct_inventory_frame _ _ _)]
        rfl

theorem foldl_processOrderItem_frame (oid : Int) (l : List OrderItemReq)
    (db : DbState) (pid sup : Int) (h : ∀ x ∈ l, pid ≠ x.productId) :
    Db.getProduct (l.foldl (processOrderItem oid) db) pid = Db.getProduct db pid
  ∧ Db.findInventory (l.foldl (processOrderItem oid) db) sup pid
      = Db.findInventory db sup pid := by
  induction l generalizing db with
  | nil => exact ⟨rfl, rfl⟩
  | cons x l ih =>
      rw [List.foldl_cons]
      have hx := h x (List.mem_cons_self x l)
      have hrest : ∀ y ∈ l, pid ≠ y.productId :=
        fun y hy => h y (List.mem_cons_of_mem _ hy)
      have hstep := processOrderItem_frame oid db x pid sup hx
      have hih := ih (processOrderItem oid db x) hrest
      exact ⟨hih.1.trans hstep.1, hih.2.trans hstep.2⟩

/-- C3: placing an order clears the placing customer's cart; each line item
of an arbitrary order is processed by clamping that product's stock at
`max 0 (stock at processing time − quantity)` — never negative — and
mirroring the value into the supplier's inventory row (stated for the item
at any position of the item list, over the route's own intermediate states);
and for orders whose line items name pairwise-distinct products, the route's
final state shows exactly `max 0 (initial stock − quantity)` in the product
and its inventory row, for every line item. -/
theorem C3_place_order :
    (∀ (db : DbState) (uid : Int) (body : OrderBody),
        (Db.getCart (placeOrder db uid body).2 uid).map Cart.items = some [])
  ∧ (∀ (db : DbState) (uid : Int) (body : OrderBody) (pre post : List OrderItemReq)
        (it : OrderItemReq) (p : Product),
        body.items = pre ++ it :: post →
        Db.getProduct (pre.foldl (processOrderItem (routeOrderId db uid body))
            (routeStateAfterOrder db uid body)) it.productId = some p →
          (placeOrder db uid body).2
            = (Db.updateCart (post.foldl (processOrderItem (routeOrderId db uid body))
                (processOrderItem (routeOrderId db uid body)
                  (pre.foldl (processOrderItem (routeOrderId db uid body))
                    (routeStateAfterOrder db uid body)) it)) uid []).2
        ∧ (Db.getProduct (processOrderItem (routeOrderId db uid body)
              (pre.foldl (processOrderItem (routeOrderId db uid body))
                (routeStateAfterOrder db uid body)) it) it.productId).map Product.stock
            = some (max 0 (p.stock - it.quantity))
        ∧ (Db.findInventory (processOrderItem (routeOrderId db uid body)
              (pre.foldl (processOrderItem (routeOrderId db uid body))
                (routeStateAfterOrder db uid body)) it) p.supplierId p.id).map
              SupplierInventory.availableStock = some (max 0 (p.stock - it.quantity))
        ∧ 0 ≤ max 0 (p.stock - it.quantity))
  ∧ (∀ (db : DbState) (uid : Int) (body : OrderBody) (it : OrderItemReq) (p : Product),
        it ∈ body.items →
        (body.items.map (fun x => x.productId)).Nodup →
        Db.getProduct db it.productId = some p →
          (Db.getProduct (placeOrder db uid body).2 it.productId).map Product.stock
            = some (max 0 (p.stock - it.quantity))
        ∧ (Db.findInventory (placeOrder db uid body).2 p.supplierId p.id).map
              SupplierInventory.availableStock = some (max 0 (p.stock - it.quantity))) := by
  refine ⟨?_, ?_, ?_⟩
  · intro db uid body
    exact getCart_updateCart _ uid []
  · intro db uid body pre post it p hitems hp
    have hspec := processOrderItem_spec (routeOrderId db uid body)
      (pre.foldl (processOrderItem (routeOrderId db uid body))
        (routeStateAfterOrder db uid body)) it p hp
    refine ⟨?_, hspec.1, hspec.2, le_max_left 0 _⟩
    show (Db.updateCart (body.items.foldl (processOrderItem (routeOrderId db uid body))
        (routeStateAfterOrder db uid body)) uid []).2 = _
    rw [hitems, List.foldl_append, List.foldl_cons]
  · intro db uid body it p hmem hnodup hp
    obtain ⟨pre, post, hitems⟩ := List.append_of_mem hmem
    rw [hitems, List.map_append, List.map_cons] at hnodup
    have hnd := List.nodup_append.mp hnodup
    have hpreNe : ∀ x ∈ pre, it.productId ≠ x.productId := by
      intro x hx hEq
      have hxmem : x.productId ∈ pre.map (fun x => x.productId) :=
        List.mem_map_of_mem _ hx
      exact hnd.2.2 (hEq ▸ hxmem) (List.mem_cons_self _ _)
    have hpostNe : ∀ x ∈ post, it.productId ≠ x.productId := by
      intro x hx hEq
      have hxmem : x.productId ∈ post.map (fun x => x.productId) :=
        List.mem_map_of_mem _ hx
      have hcons := hnd.2.1
      rw [List.nodup_cons] at hcons
      exact hcons.1 (hEq ▸ hxmem)
    have hkeep := foldl_processOrderItem_frame (routeOrderId db uid body) pre
      (routeStateAfterOrder db uid body) it.productId p.supplierId hpreNe
    have hp0 : Db.getProduct (routeStateAfterOrder db uid body) it.productId
        = some p := hp
    have hpPre : Db.getProduct (pre.foldl (processOrderItem (routeOrderId db uid body))
        (routeStateAfterOrder db uid body)) it.productId = some p :=
      hkeep.1.trans hp0
    have hspec := processOrderItem_spec (routeOrderId db uid body)
      (pre.foldl (processOrderItem (routeOrderId db uid body))
        (routeStateAfterOrder db uid body)) it p hpPre
    have hpid : p.id = it.productId := by
      obtain ⟨r, hr, hrp⟩ := Option.map_eq_some'.mp hp
      rw [← hrp]
      simpa using List.find?_some hr
    have hkeep2 := foldl_processOrderItem_frame (routeOrderId db uid body) post
      (processOrderItem (routeOrderId db uid body)
        (pre.foldl (processOrderItem (routeOrderId db uid body))
          (routeStateAfterOrder db uid body)) it) it.productId p.supplierId hpostNe
    constructor
    · show (Db.getProduct (Db.updateCart (body.items.foldl
          (processOrderItem (routeOrderId db uid body))
          (routeStateAfterOrder db uid body)) uid []).2 it.productId).map Product.stock
        = some (max 0 (p.stock - it.quantity))
      rw [getProduct_congr it.productId (updateCart_products_frame _ uid []),
          hitems, List.foldl_append, List.foldl_cons, hkeep2.1]
      exact hspec.1
    · show (Db.findInventory (Db.updateCart (body.items.foldl
          (processOrderItem (routeOrderId db uid body))
          (routeStateAfterOrder db uid body)) uid []).2 p.supplierId p.id).map
          SupplierInventory.availableStock = some (max 0 (p.stock - it.quantity))
      rw [hpid] at hspec ⊢
      rw [findInventory_congr p.supplierId it.productId (updateCart_inventory_frame _ uid []),
          hitems, List.foldl_append, List.foldl_cons, hkeep2.2]
      exact hspec.2

/-- C3 witness: ordering quantity 3 of product 1 (stock 10) leaves stock 7,
inventory 7 and an empty cart, through the distinct-products final-state
part of the theorem. -/
theorem C3_witness :
    (Db.getProduct (placeOrder dbStock10 3 orderBody3).2 1).map Product.stock = some 7
  ∧ (Db.findInventory (placeOrder dbStock10 3 orderBody3).2 2 1).map
        SupplierInventory.availableStock = some 7
  ∧ (Db.getCart (placeOrder dbStock10 3 orderBody3).2 3).map Cart.items = some [] := by
  have h := C3_place_order.2.2 dbStock10 3 orderBody3
    ({ productId := 1, quantity := 3, price := 29 }) (sampleProduct 1 2 10)
    (by decide) (by decide) (by decide)
  exact ⟨h.1, h.2, C3_place_order.1 dbStock10 3 orderBody3⟩

theorem trendingLe_trans (a b c : Product × ℚ)
    (h1 : Mem.trendingLe a b = true) (h2 : Mem.trendingLe b c = true) :
    Mem.trendingLe a c = true := by
  simp only [Mem.trendingLe, decide_eq_true_eq] at h1 h2 ⊢
  exact le_trans h2 h1

theorem trendingLe_total (a b : Product × ℚ) :
    (Mem.trendingLe a b || Mem.trendingLe b a) = true := by
  simp only [Mem.trendingLe, Bool.or_eq_true, decide_eq_true_eq]
  exact le_total b.2 a.2

theorem trendingPool_snd (s : MemState) (x : Product × ℚ)
    (hx : x ∈ trendingPool s) : x.2 = Mem.avgRating s x.1.id := by
  have hxW : x ∈ (mapValues s.products).map (fun p => (p, Mem.avgRating s p.id)) :=
    List.mem_of_mem_filter hx
  obtain ⟨q, _, rfl⟩ := List.mem_map.mp hxW
  rfl

/-- C6: `getTrendingProducts` returns only active products, in descending
order of mean review rating (a product with no reviews rates 0), truncated
to the first `limit` entries, with 4 as the default limit. -/
theorem C6_trending (s : MemState) (limit : Nat) :
    (∀ p ∈ Mem.getTrendingProducts s limit, p.isActive = true)
  ∧ List.Pairwise (fun a b => Mem.avgRating s b.id ≤ Mem.avgRating s a.id)
      (Mem.getTrendingProducts s limit)
  ∧ (Mem.getTrendingProducts s limit).length ≤ limit
  ∧ (∀ pid, (mapValues s.reviews).filter (fun r => r.productId == pid) = [] →
        Mem.avgRating s pid = 0)
  ∧ Mem.getTrendingProducts s = Mem.getTrendingProducts s 4
  ∧ Mem.getTrendingProducts s limit
      = (((trendingPool s).mergeSort Mem.trendingLe).take limit).map (fun x => x.1)
  ∧ (Mem.getTrendingProducts s limit).length = min limit (trendingPool s).length := by
  have hT : Mem.getTrendingProducts s limit
      = (((trendingPool s).mergeSort Mem.trendingLe).take limit).map
          (fun x => x.1) := rfl
  have hperm : ((trendingPool s).mergeSort Mem.trendingLe).Perm (trendingPool s) :=
    List.mergeSort_perm (trendingPool s) _
  refine ⟨?_, ?_, ?_, ?_, rfl, hT, ?_⟩
  · intro p hp
    rw [hT] at hp
    obtain ⟨x, hx, rfl⟩ := List.mem_map.mp hp
    have hxS : x ∈ (trendingPool s).mergeSort Mem.trendingLe :=
      List.take_subset _ _ hx
    have hxA : x ∈ trendingPool s := hperm.mem_iff.mp hxS
    exact (List.mem_filter.mp hxA).2
  · have hsorted : ((trendingPool s).mergeSort Mem.trendingLe).Pairwise
        (fun a b => Mem.trendingLe a b = true) :=
      List.sorted_mergeSort trendingLe_trans trendingLe_total (trendingPool s)
    have htake : (((trendingPool s).mergeSort Mem.trendingLe).take limit).Pairwise
        (fun a b => Mem.trendingLe a b = true) :=
      List.Pairwise.sublist (List.take_sublist limit _) hsorted
    have hstrong : (((trendingPool s).mergeSort Mem.trendingLe).take limit).Pairwise
        (fun x y => Mem.avgRating s y.1.id ≤ Mem.avgRating s x.1.id) := by
      refine List.Pairwise.imp_of_mem ?_ htake
      intro x y hx hy hxy
      have hxA : x ∈ trendingPool s :=
        hperm.mem_iff.mp (List.take_subset _ _ hx)
      have hyA : y ∈ trendingPool s :=
        hperm.mem_iff.mp (List.take_subset _ _ hy)
      have hvx := trendingPool_snd s x hxA
      have hvy := trendingPool_snd s y hyA
      simp only [Mem.trendingLe, decide_eq_true_eq] at hxy
      rw [← hvx, ← hvy]
      exact hxy
    rw [hT, List.pairwise_map]
    exact hstrong
  · rw [hT, List.length_map, List.length_take]
    exact min_le_left _ _
  · intro pid h
    simp [Mem.avgRating, h]
  · rw [hT, List.length_map, List.length_take, hperm.length_eq]

/-- C6 witness: with two active products (one five-star-reviewed, one
unreviewed) and one reviewed-but-inactive product, the top-2 trending list
has at most two entries and exactly as many as the active pool allows. -/
theorem C6_witness :
    (Mem.getTrendingProducts memTrendingState 2).length ≤ 2
  ∧ (Mem.getTrendingProducts memTrendingState 2).length
      = min 2 (trendingPool memTrendingState).length :=
  ⟨(C6_trending memTrendingState 2).2.2.1,
   (C6_trending memTrendingState 2).2.2.2.2.2.2⟩

/-- C2 witness: concrete runs of both halves — the persistent cascade clears
product 1's review rows and reports removal, and the in-memory delete removes
the product map entry and reports presence. -/
theorem C2_witness :
    (Db.deleteProduct dbOneProduct 1).2.reviews.filter (fun r => r.productId == 1) = []
  ∧ (Db.deleteProduct dbOneProduct 1).1 = true
  ∧ mapGet 1 (Mem.deleteProduct memProdWithDeps 1).2.products = none
  ∧ (Mem.deleteProduct memProdWithDeps 1).1 = true := by
  have hm := C2_deleteProduct_cascade.2 memProdWithDeps 1 (by decide)
  refine ⟨(C2_deleteProduct_cascade.1 dbOneProduct 1).2.1,
    (C2_deleteProduct_cascade.1 dbOneProduct 1).2.2.2.mpr
      ⟨sampleRow 1 2 5, by decide, by decide⟩, hm.1, ?_⟩
  rw [hm.2.2.2]
  decide

/-- C4 witness: the `GET /api/user` body of a concrete user has no password
attribute. -/
theorem C4_witness :
    (apiUserBody (sampleUser 1 "alice" "secret" "customer")).password = none :=
  (C4_password_stripping (sampleUser 1 "alice" "secret" "customer") 0).2.2.1

/-- C10 witness: on a concrete state, `supplierId := 0` returns the same
products as the omitted filter. -/
theorem C10_witness :
    Mem.getProducts memNoInv { supplierId := some 0 }
      = Mem.getProducts memNoInv { supplierId := none } :=
  (C10_falsy_filters memNoInv {} {}).2.1
